import Mathlib

/-
  Shallow embedding of the idat-rs IDAT binary reader
  (src/lib.rs, src/fields.rs, src/errors.rs).

  A file is a list of bytes (naturals < 256); the BufReader<File> byte
  source is a list of bytes together with a read cursor.  Fallible Rust
  operations are embedded as functions into `Outcome`, whose `fatal`
  constructor models a Rust panic (unwrap on None / todo!()) as opposed
  to a returned `ReaderError`.
-/

namespace Idat

/-- Little-endian value of a list of bytes (least significant byte first). -/
def leNat : List Nat → Nat
  | [] => 0
  | b :: bs => b + 256 * leNat bs

/-- Two's-complement reading of 4 little-endian bytes, as in Rust's
`i32::from_le_bytes`. -/
def i32FromLe (bs : List Nat) : Int :=
  let u := leNat bs
  if u < 2 ^ 31 then (u : Int) else (u : Int) - 2 ^ 32

/-- Decode one UTF-8 scalar from the front of a byte list, returning the
character and the remaining bytes; mirrors the validation performed by
Rust's `String::from_utf8` (rejects overlong forms, surrogates, values
above U+10FFFF, and stray or missing continuation bytes). -/
def decodeOne : List Nat → Option (Char × List Nat)
  | [] => none
  | b :: rest =>
    if b < 0x80 then some (Char.ofNat b, rest)
    else if b < 0xE0 then
      match rest with
      | b1 :: r =>
        if 0xC2 ≤ b ∧ 0x80 ≤ b1 ∧ b1 < 0xC0 then
          some (Char.ofNat ((b - 0xC0) * 0x40 + (b1 - 0x80)), r)
        else none
      | [] => none
    else if b < 0xF0 then
      match rest with
      | b1 :: b2 :: r =>
        if 0x80 ≤ b1 ∧ b1 < 0xC0 ∧ 0x80 ≤ b2 ∧ b2 < 0xC0 then
          let cp := (b - 0xE0) * 0x1000 + (b1 - 0x80) * 0x40 + (b2 - 0x80)
          if 0x800 ≤ cp ∧ (cp < 0xD800 ∨ 0xE000 ≤ cp) then some (Char.ofNat cp, r)
          else none
        else none
      | _ => none
    else if b < 0xF5 then
      match rest with
      | b1 :: b2 :: b3 :: r =>
        if 0x80 ≤ b1 ∧ b1 < 0xC0 ∧ 0x80 ≤ b2 ∧ b2 < 0xC0 ∧ 0x80 ≤ b3 ∧ b3 < 0xC0 then
          let cp := (b - 0xF0) * 0x40000 + (b1 - 0x80) * 0x1000 +
            (b2 - 0x80) * 0x40 + (b3 - 0x80)
          if 0x10000 ≤ cp ∧ cp ≤ 0x10FFFF then some (Char.ofNat cp, r)
          else none
        else none
      | _ => none
    else none

/-- Fuelled UTF-8 decoding loop; the fuel only bounds recursion depth and
one byte of input always consumes one unit of fuel, so `l.length` fuel is
always sufficient. -/
def utf8DecodeAux : Nat → List Nat → Option (List Char)
  | _, [] => some []
  | 0, _ :: _ => none
  | Nat.succ fuel, b :: t =>
    match decodeOne (b :: t) with
    | none => none
    | some (c, rest) => Option.map (fun cs => c :: cs) (utf8DecodeAux fuel rest)

/-- Full UTF-8 validation/decoding of a byte list, as Rust's
`String::from_utf8` on those bytes. -/
def utf8DecodeChars (l : List Nat) : Option (List Char) :=
  utf8DecodeAux l.length l

/-- Decimal rendering of the elements of a byte list, comma-space
separated, as produced inside Rust's `{:?}` for a byte array. -/
def dumpInner : List Nat → String
  | [] => ""
  | [b] => toString b
  | b :: rest => toString b ++ ", " ++ dumpInner rest

/-- Rendering of a byte array by Rust's `format!("{:?}", bytes)`,
e.g. `[255, 255, 255, 255]`. -/
def dumpBytes (bs : List Nat) : String :=
  "[" ++ dumpInner bs ++ "]"

/- ---------------- src/fields.rs ---------------- -/

/-- Field kinds of the IDAT directory (fields.rs `FieldType`). -/
inductive FieldType where
  | SNPCount
  | IlluminaID
  | SD
  | Mean
  | BeadCounts
  | Midblock
  | RunInfo
  | RedGreen
  | Manifest
  | Barcode
  | Format
  | Label
  | Opa
  | SampleID
  | Descr
  | Plate
  | Well
  | Unknown
  deriving DecidableEq

/-- The `TryFromPrimitive` instance derived by num_enum for `FieldType`:
each listed discriminant maps to its constructor, every other numeric
code is an error. -/
def FieldType.tryFrom (n : Nat) : Option FieldType :=
  if n = 1000 then some .SNPCount
  else if n = 102 then some .IlluminaID
  else if n = 103 then some .SD
  else if n = 104 then some .Mean
  else if n = 107 then some .BeadCounts
  else if n = 200 then some .Midblock
  else if n = 300 then some .RunInfo
  else if n = 400 then some .RedGreen
  else if n = 401 then some .Manifest
  else if n = 402 then some .Barcode
  else if n = 403 then some .Format
  else if n = 404 then some .Label
  else if n = 405 then some .Opa
  else if n = 406 then some .SampleID
  else if n = 407 then some .Descr
  else if n = 408 then some .Plate
  else if n = 409 then some .Well
  else if n = 410 then some .Unknown
  else none

/-- Wire formats (fields.rs `FieldFormat`). -/
inductive FieldFormat where
  | string
  | long
  | short
  | int
  | byte
  | runInfo
  | midBlock
  deriving DecidableEq

/-- fields.rs `FieldType::get_data_type`. -/
def FieldType.get_data_type : FieldType → FieldFormat
  | .SNPCount | .IlluminaID | .RedGreen => .int
  | .SD | .BeadCounts | .Mean => .short
  | .Manifest | .Barcode | .Format | .Unknown | .Descr
  | .Plate | .SampleID | .Opa | .Label | .Well => .string
  | .RunInfo => .runInfo
  | .Midblock => .midBlock

/-- Decoded field payloads (fields.rs `FieldValue`). -/
inductive FieldValue where
  | string (s : String)
  | long (n : Int)
  | short (n : Nat)
  | int (n : Int)
  | byte (bs : List Nat)
  | runInfo
  | midBlock
  deriving DecidableEq

/-- fields.rs `FieldDef`: a directory entry. -/
structure FieldDef where
  field_type : FieldType
  byte_offset : Nat
  deriving DecidableEq

/- ---------------- src/errors.rs ---------------- -/

/-- errors.rs `ReaderError`.  `io` stands for the `Io(#[from] io::Error)`
variant wrapping the underlying I/O failure. -/
inductive ReaderError where
  | invalidHeader (actual : String)
  | invalidFieldType (actual : Nat)
  | missingField (field : FieldType)
  | fieldNotIterable
  | io
  deriving DecidableEq

/-- Result of running a piece of embedded Rust: a value, a returned
`ReaderError`, or a panic (`fatal`: unwrap on `None`, `todo!()`, ...). -/
inductive Outcome (α : Type) where
  | ok (a : α)
  | err (e : ReaderError)
  | fatal
  deriving DecidableEq

/-- Whether an outcome is a successfully returned value. -/
def Outcome.isOk {α : Type} : Outcome α → Bool
  | .ok _ => true
  | _ => false

/- ---------------- src/lib.rs ---------------- -/

/-- The `BufReader<File>` byte source: file contents plus read cursor. -/
structure ByteSource where
  data : List Nat
  pos : Nat
  deriving DecidableEq

/-- `read_exact` into a buffer of `n` bytes: succeeds returning exactly
the next `n` bytes and advancing the cursor, or fails with an I/O error
when fewer than `n` bytes remain. -/
def ByteSource.read_exact (src : ByteSource) (n : Nat) : Outcome (List Nat × ByteSource) :=
  if src.pos + n ≤ src.data.length then
    .ok ((src.data.drop src.pos).take n, { src with pos := src.pos + n })
  else
    .err .io

/-- lib.rs `Reader`: byte source, parsed directory, resolved SNP count. -/
structure Reader where
  inner : ByteSource
  fields : List FieldDef
  snp_count : Nat
  deriving DecidableEq

/-- lib.rs `Reader::check_header`: read 4 bytes, decode as UTF-8
(`String::from_utf8`), require the text `IDAT`; on a UTF-8-valid
mismatch the error carries the decoded text, otherwise the `{:?}` byte
dump of the 4-byte buffer. -/
def Reader.check_header (src : ByteSource) : Outcome (Unit × ByteSource) :=
  match src.read_exact 4 with
  | .ok (bs, src1) =>
    match utf8DecodeChars bs with
    | some cs =>
      if String.mk cs = "IDAT" then .ok ((), src1)
      else .err (.invalidHeader (String.mk cs))
    | none => .err (.invalidHeader (dumpBytes bs))
  | .err e => .err e
  | .fatal => .fatal

/-- lib.rs `Reader::get_field_definition`: 2-byte little-endian field
code (unmapped codes become `Unknown` via the `Err(_)` arm of
`try_from`), then 8-byte little-endian absolute offset. -/
def Reader.get_field_definition (src : ByteSource) : Outcome (FieldDef × ByteSource) :=
  match src.read_exact 2 with
  | .ok (cbs, src1) =>
    let field_code := leNat cbs
    let field_type :=
      match FieldType.tryFrom field_code with
      | some f => f
      | none => FieldType.Unknown
    match src1.read_exact 8 with
    | .ok (obs, src2) => .ok ({ field_type := field_type, byte_offset := leNat obs }, src2)
    | .err e => .err e
    | .fatal => .fatal
  | .err e => .err e
  | .fatal => .fatal

/-- The `(0..field_count).map(...).collect::<Result<_,_>>()` loop of
lib.rs `Reader::get_fields`: the first failing entry read aborts the
whole collection. -/
def Reader.get_fields_loop : Nat → ByteSource → Outcome (List FieldDef × ByteSource)
  | 0, src => .ok ([], src)
  | Nat.succ n, src =>
    match Reader.get_field_definition src with
    | .ok (fd, src1) =>
      match Reader.get_fields_loop n src1 with
      | .ok (fds, src2) => .ok (fd :: fds, src2)
      | .err e => .err e
      | .fatal => .fatal
    | .err e => .err e
    | .fatal => .fatal

/-- lib.rs `Reader::get_fields`: 4-byte little-endian field count, then
that many directory entries. -/
def Reader.get_fields (src : ByteSource) : Outcome (List FieldDef × ByteSource) :=
  match src.read_exact 4 with
  | .ok (cbs, src1) => Reader.get_fields_loop (leNat cbs) src1
  | .err e => .err e
  | .fatal => .fatal

/-- lib.rs `Reader::new`.  After header, version and directory: the
`find` for the `SNPCount` entry is followed by `.unwrap()`, so a missing
entry is a panic (`fatal`), not a returned error.  The subsequent
`read_exact(&mut snp_count_buf)` has its `Result` discarded (no `?` in
the source), so on a short read construction still succeeds; the buffer
then holds the bytes read before EOF padded with the zeroes it was
initialised with (the default `read_exact` copies what it could read),
and the cursor stops at end of file.  `seek` on a file to an absolute
position always succeeds and is modelled as a plain cursor update. -/
def Reader.new (src : ByteSource) : Outcome Reader :=
  match Reader.check_header src with
  | .ok (_, s1) =>
    match s1.read_exact 8 with
    | .ok (_, s2) =>
      match Reader.get_fields s2 with
      | .ok (fields, s3) =>
        match fields.find? (fun f => decide (f.field_type = FieldType.SNPCount)) with
        | some fdef =>
          let s4 : ByteSource := { s3 with pos := fdef.byte_offset }
          let got := (s4.data.drop s4.pos).take 4
          let snpBytes := got ++ List.replicate (4 - got.length) 0
          let s5 : ByteSource :=
            { s4 with
              pos := if s4.pos + 4 ≤ s4.data.length then s4.pos + 4
                else max s4.data.length s4.pos }
          .ok { inner := s5, fields := fields, snp_count := leNat snpBytes }
        | none => .fatal
      | .err e => .err e
      | .fatal => .fatal
    | .err e => .err e
    | .fatal => .fatal
  | .err e => .err e
  | .fatal => .fatal

/-- lib.rs `FieldIterator` state: target definition, number of elements
already counted as returned, and the expected cursor position. -/
structure FieldIterator where
  field_def : FieldDef
  returned : Nat
  offset : Nat
  deriving DecidableEq

/-- lib.rs `Reader::field_iter`: only `IlluminaID`, `SD`, `Mean` and
`BeadCounts` are iterable; any other kind is `FieldNotIterable` before
the directory is consulted; an iterable kind absent from the directory
is `MissingField`. -/
def Reader.field_iter (r : Reader) (field : FieldType) : Outcome FieldIterator :=
  match field with
  | .IlluminaID | .SD | .Mean | .BeadCounts =>
    match r.fields.find? (fun f => decide (f.field_type = field)) with
    | some fd => .ok { field_def := fd, returned := 0, offset := fd.byte_offset }
    | none => .err (.missingField field)
  | _ => .err .fieldNotIterable

/-- lib.rs `FieldIterator::next`.  Faithful to the source: `returned` is
incremented once before the read and once after it (lines 147 and 169),
the stopping test is `returned > snp_count`, `stream_position` on a file
never fails (its `Err` arm is dead in this model), the re-seek happens
only when the cursor drifted, a failed element read is `.unwrap()`ed
(panic), and every non-`Int` wire format hits `todo!()` (panic). -/
def FieldIterator.next (r : Reader) (it : FieldIterator) :
    Outcome (Option FieldValue × Reader × FieldIterator) :=
  if it.returned > r.snp_count then
    .ok (none, r, it)
  else
    let it1 : FieldIterator := { it with returned := it.returned + 1 }
    let inner1 : ByteSource :=
      if r.inner.pos ≠ it1.offset then { r.inner with pos := it1.offset } else r.inner
    match it1.field_def.field_type.get_data_type with
    | FieldFormat.int =>
      match inner1.read_exact 4 with
      | .ok (buf, inner2) =>
        let value := FieldValue.int (i32FromLe buf)
        let it2 : FieldIterator :=
          { it1 with offset := inner2.pos, returned := it1.returned + 1 }
        .ok (some value, { r with inner := inner2 }, it2)
      | _ => .fatal
    | _ => .fatal

/-- Drive a `FieldIterator` with `next` until it reports exhaustion (or
the fuel runs out), collecting the yielded values; a returned error or a
panic of any single `next` call is the result of the whole run. -/
def runIter : Nat → Reader → FieldIterator → Outcome (List FieldValue)
  | 0, _, _ => .ok []
  | Nat.succ fuel, r, it =>
    match FieldIterator.next r it with
    | .ok (none, _, _) => .ok []
    | .ok (some v, r1, it1) =>
      match runIter fuel r1 it1 with
      | .ok vs => .ok (v :: vs)
      | .err e => .err e
      | .fatal => .fatal
    | .err e => .err e
    | .fatal => .fatal

/-- The whole user pipeline: open a byte source with `Builder`/`Reader::new`,
request an iterator for `k`, and collect its elements. -/
def openAndCollect (data : List Nat) (k : FieldType) (fuel : Nat) : Outcome (List FieldValue) :=
  match Reader.new { data := data, pos := 0 } with
  | .ok r =>
    match r.field_iter k with
    | .ok it => runIter fuel r it
    | .err e => .err e
    | .fatal => .fatal
  | .err e => .err e
  | .fatal => .fatal

/-- The resolved SNP count of a successfully constructed reader. -/
def snpCountOf : Outcome Reader → Option Nat
  | .ok r => some r.snp_count
  | _ => none

/-- The `actual` payload the header check reports for a given 4-byte
magic: the decoded text when the bytes are valid UTF-8, the raw byte
dump otherwise. -/
def headerActual (bs : List Nat) : String :=
  match utf8DecodeChars bs with
  | some cs => String.mk cs
  | none => dumpBytes bs

/- ---------------- concrete byte sources used by the theorems ---------------- -/

/-- A 16-byte file: valid `IDAT` magic, version 0, field count 0 — a
well-formed header whose directory has no `SNPCount` entry. -/
def c1Data : List Nat := [73, 68, 65, 84] ++ List.replicate 8 0 ++ [0, 0, 0, 0]

/-- Magic, version 0, two directory entries: `SNPCount` (code 1000) at
offset 36 holding 3, `IlluminaID` (code 102) at offset 40 holding the
three little-endian `i32`s 10, 20, 30 — the specification's own
boundary scenario. -/
def c2Data : List Nat :=
  [73, 68, 65, 84] ++ List.replicate 8 0 ++ [2, 0, 0, 0] ++
  [232, 3] ++ [36, 0, 0, 0, 0, 0, 0, 0] ++
  [102, 0] ++ [40, 0, 0, 0, 0, 0, 0, 0] ++
  [3, 0, 0, 0] ++ [10, 0, 0, 0] ++ [20, 0, 0, 0] ++ [30, 0, 0, 0]

/-- Magic, version 0, `SNPCount` at offset 36 holding 1, `SD` (code 103)
at offset 40 holding the little-endian `u16` 1. -/
def c3Data : List Nat :=
  [73, 68, 65, 84] ++ List.replicate 8 0 ++ [2, 0, 0, 0] ++
  [232, 3] ++ [36, 0, 0, 0, 0, 0, 0, 0] ++
  [103, 0] ++ [40, 0, 0, 0, 0, 0, 0, 0] ++
  [1, 0, 0, 0] ++ [1, 0]

/-- A 26-byte file: magic, version 0, one directory entry (`SNPCount` at
offset 26), and nothing else — the 4 bytes of the `SNPCount` value lie
past end of file, so reading them is a short read. -/
def c4Data : List Nat :=
  [73, 68, 65, 84] ++ List.replicate 8 0 ++ [1, 0, 0, 0] ++
  [232, 3] ++ [26, 0, 0, 0, 0, 0, 0, 0]

/-- Magic, version 0, `SNPCount` at offset 36 holding 1, `IlluminaID` at
offset 40 over the bytes `01 00 00 00`. -/
def c9DataA : List Nat :=
  [73, 68, 65, 84] ++ List.replicate 8 0 ++ [2, 0, 0, 0] ++
  [232, 3] ++ [36, 0, 0, 0, 0, 0, 0, 0] ++
  [102, 0] ++ [40, 0, 0, 0, 0, 0, 0, 0] ++
  [1, 0, 0, 0] ++ [1, 0, 0, 0]

/-- As `c9DataA` but with the `IlluminaID` element bytes `FF FF FF FF`. -/
def c9DataB : List Nat :=
  [73, 68, 65, 84] ++ List.replicate 8 0 ++ [2, 0, 0, 0] ++
  [232, 3] ++ [36, 0, 0, 0, 0, 0, 0, 0] ++
  [102, 0] ++ [40, 0, 0, 0, 0, 0, 0, 0] ++
  [1, 0, 0, 0] ++ [255, 255, 255, 255]

/-- Magic, version 0, three directory entries with a duplicated kind:
`SNPCount` at offset 46 holding 2, a second `SNPCount` at offset 50
holding 9, and `IlluminaID` at offset 54. -/
def c10Data : List Nat :=
  [73, 68, 65, 84] ++ List.replicate 8 0 ++ [3, 0, 0, 0] ++
  [232, 3] ++ [46, 0, 0, 0, 0, 0, 0, 0] ++
  [232, 3] ++ [50, 0, 0, 0, 0, 0, 0, 0] ++
  [102, 0] ++ [54, 0, 0, 0, 0, 0, 0, 0] ++
  [2, 0, 0, 0] ++ [9, 0, 0, 0] ++ [5, 0, 0, 0] ++ [6, 0, 0, 0]

/-- A 36-byte file that declares 5 directory entries but holds only 2
entries' worth of bytes after the header — the specification's
truncated-directory scenario. -/
def c6Data : List Nat :=
  [73, 68, 65, 84] ++ List.replicate 8 0 ++ [5, 0, 0, 0] ++ List.replicate 20 0

/- ---------------- helper lemmas ---------------- -/

/-- UTF-8 encoding of one unicode scalar value, given by its code point. -/
def utf8EncodeChar (c : Char) : List Nat :=
  let n := c.toNat
  if n < 0x80 then [n]
  else if n < 0x800 then [0xC0 + n / 0x40, 0x80 + n % 0x40]
  else if n < 0x10000 then [0xE0 + n / 0x1000, 0x80 + n / 0x40 % 0x40, 0x80 + n % 0x40]
  else [0xF0 + n / 0x40000, 0x80 + n / 0x1000 % 0x40, 0x80 + n / 0x40 % 0x40, 0x80 + n % 0x40]

/-- UTF-8 encoding of a character list. -/
def utf8Encode : List Char → List Nat
  | [] => []
  | c :: cs => utf8EncodeChar c ++ utf8Encode cs

theorem toNat_ofNat_valid (n : Nat) (h : n.isValidChar) : (Char.ofNat n).toNat = n := by
  rw [Char.ofNat, dif_pos h]
  rfl

theorem decodeOne_encode (l : List Nat) (c : Char) (rest : List Nat)
    (h : decodeOne l = some (c, rest)) : utf8EncodeChar c ++ rest = l := by
  match l with
  | [] => simp [decodeOne] at h
  | b :: t =>
    by_cases h1 : b < 0x80
    · simp only [decodeOne, if_pos h1, Option.some.injEq, Prod.mk.injEq] at h
      obtain ⟨rfl, rfl⟩ := h
      have hv : Nat.isValidChar b := Or.inl (by omega)
      simp only [utf8EncodeChar, toNat_ofNat_valid b hv]
      rw [if_pos h1]
      rfl
    · by_cases h2 : b < 0xE0
      · match t with
        | [] => simp [decodeOne, h1, h2] at h
        | b1 :: r =>
          by_cases hc : 0xC2 ≤ b ∧ 0x80 ≤ b1 ∧ b1 < 0xC0
          · simp only [decodeOne, if_neg h1, if_pos h2, if_pos hc,
              Option.some.injEq, Prod.mk.injEq] at h
            obtain ⟨rfl, rfl⟩ := h
            have hv : Nat.isValidChar ((b - 0xC0) * 0x40 + (b1 - 0x80)) := Or.inl (by omega)
            simp only [utf8EncodeChar, toNat_ofNat_valid _ hv]
            rw [if_neg (by omega), if_pos (by omega)]
            simp only [List.cons_append, List.nil_append, List.cons.injEq, and_true]
            omega
          · simp [decodeOne, h1, h2, hc] at h
      · by_cases h3 : b < 0xF0
        · match t with
          | [] => simp [decodeOne, h1, h2, h3] at h
          | [b1] => simp [decodeOne, h1, h2, h3] at h
          | b1 :: b2 :: r =>
            by_cases hc : 0x80 ≤ b1 ∧ b1 < 0xC0 ∧ 0x80 ≤ b2 ∧ b2 < 0xC0
            · by_cases hcp : 0x800 ≤ (b - 0xE0) * 0x1000 + (b1 - 0x80) * 0x40 + (b2 - 0x80) ∧
                  ((b - 0xE0) * 0x1000 + (b1 - 0x80) * 0x40 + (b2 - 0x80) < 0xD800 ∨
                    0xE000 ≤ (b - 0xE0) * 0x1000 + (b1 - 0x80) * 0x40 + (b2 - 0x80))
              · simp only [decodeOne, if_neg h1, if_neg h2, if_pos h3, if_pos hc, if_pos hcp,
                  Option.some.injEq, Prod.mk.injEq] at h
                obtain ⟨rfl, rfl⟩ := h
                have hv : Nat.isValidChar
                    ((b - 0xE0) * 0x1000 + (b1 - 0x80) * 0x40 + (b2 - 0x80)) := by
                  rcases hcp.2 with hlo | hhi
                  · exact Or.inl (by omega)
                  · exact Or.inr ⟨by omega, by omega⟩
                simp only [utf8EncodeChar, toNat_ofNat_valid _ hv]
                rw [if_neg (by omega), if_neg (by omega), if_pos (by omega)]
                simp only [List.cons_append, List.nil_append, List.cons.injEq, and_true]
                omega
              · simp [decodeOne, h1, h2, h3, hc, hcp] at h
            · simp [decodeOne, h1, h2, h3, hc] at h
        · by_cases h4 : b < 0xF5
          · match t with
            | [] => simp [decodeOne, h1, h2, h3, h4] at h
            | [b1] => simp [decodeOne, h1, h2, h3, h4] at h
            | [b1, b2] => simp [decodeOne, h1, h2, h3, h4] at h
            | b1 :: b2 :: b3 :: r =>
              by_cases hc : 0x80 ≤ b1 ∧ b1 < 0xC0 ∧ 0x80 ≤ b2 ∧ b2 < 0xC0 ∧
                  0x80 ≤ b3 ∧ b3 < 0xC0
              · by_cases hcp : 0x10000 ≤ (b - 0xF0) * 0x40000 + (b1 - 0x80) * 0x1000 +
                      (b2 - 0x80) * 0x40 + (b3 - 0x80) ∧
                    (b - 0xF0) * 0x40000 + (b1 - 0x80) * 0x1000 +
                      (b2 - 0x80) * 0x40 + (b3 - 0x80) ≤ 0x10FFFF
                · simp only [decodeOne, if_neg h1, if_neg h2, if_neg h3, if_pos h4, if_pos hc,
                    if_pos hcp, Option.some.injEq, Prod.mk.injEq] at h
                  obtain ⟨rfl, rfl⟩ := h
                  have hv : Nat.isValidChar ((b - 0xF0) * 0x40000 + (b1 - 0x80) * 0x1000 +
                      (b2 - 0x80) * 0x40 + (b3 - 0x80)) :=
                    Or.inr ⟨by omega, by omega⟩
                  simp only [utf8EncodeChar, toNat_ofNat_valid _ hv]
                  rw [if_neg (by omega), if_neg (by omega), if_neg (by omega)]
                  simp only [List.cons_append, List.nil_append, List.cons.injEq, and_true]
                  omega
                · simp [decodeOne, h1, h2, h3, h4, hc, hcp] at h
              · simp [decodeOne, h1, h2, h3, h4, hc] at h
          · simp [decodeOne, h1, h2, h3, h4] at h

theorem utf8DecodeAux_encode (fuel : Nat) :
    ∀ (l : List Nat) (cs : List Char), utf8DecodeAux fuel l = some cs → utf8Encode cs = l := by
  induction fuel with
  | zero =>
    intro l cs h
    match l with
    | [] =>
      obtain rfl : [] = cs := by simpa [utf8DecodeAux] using h
      rfl
    | b :: t => simp [utf8DecodeAux] at h
  | succ fuel ih =>
    intro l cs h
    match l with
    | [] =>
      obtain rfl : [] = cs := by simpa [utf8DecodeAux] using h
      rfl
    | b :: t =>
      simp only [utf8DecodeAux] at h
      cases hd : decodeOne (b :: t) with
      | none => simp [hd] at h
      | some p =>
        obtain ⟨c, rest⟩ := p
        simp only [hd, Option.map_eq_some'] at h
        obtain ⟨cs1, hcs1, rfl⟩ := h
        have henc := decodeOne_encode (b :: t) c rest hd
        calc utf8Encode (c :: cs1) = utf8EncodeChar c ++ utf8Encode cs1 := rfl
          _ = utf8EncodeChar c ++ rest := by rw [ih rest cs1 hcs1]
          _ = b :: t := henc

/-- Decoding is a right inverse of encoding: whatever
`String::from_utf8` accepts re-encodes to exactly the input bytes. -/
theorem utf8DecodeChars_encode (l : List Nat) (cs : List Char)
    (h : utf8DecodeChars l = some cs) : utf8Encode cs = l :=
  utf8DecodeAux_encode l.length l cs h

theorem read_exact_ok (src : ByteSource) (n : Nat) (h : src.pos + n ≤ src.data.length) :
    src.read_exact n =
      Outcome.ok ((src.data.drop src.pos).take n, { src with pos := src.pos + n }) := by
  simp [ByteSource.read_exact, h]

theorem read_exact_err (src : ByteSource) (n : Nat) (h : ¬ src.pos + n ≤ src.data.length) :
    src.read_exact n = Outcome.err ReaderError.io := by
  simp [ByteSource.read_exact, h]

/-- A directory-entry read loop over a region that is too short for the
requested number of complete 10-byte entries fails with an I/O error. -/
theorem get_fields_loop_short (m : Nat) :
    ∀ src : ByteSource, src.data.length < src.pos + 10 * m → 1 ≤ m →
      Reader.get_fields_loop m src = Outcome.err ReaderError.io := by
  induction m with
  | zero => intro src _ hm; exact absurd hm (by omega)
  | succ m ih =>
    intro src hshort _
    simp only [Reader.get_fields_loop, Reader.get_field_definition]
    by_cases h2 : src.pos + 2 ≤ src.data.length
    · simp only [read_exact_ok src 2 h2]
      by_cases h10 : src.pos + 2 + 8 ≤ src.data.length
      · simp only [read_exact_ok { src with pos := src.pos + 2 } 8 (by simpa using h10)]
        rcases Nat.eq_zero_or_pos m with rfl | hm1
        · exact absurd h10 (by omega)
        · simp only [ih { data := src.data, pos := src.pos + 2 + 8 } (by simp; omega) hm1]
      · simp only [read_exact_err { src with pos := src.pos + 2 } 8 (by simpa using h10)]
    · simp only [read_exact_err src 2 h2]

/-- `find?` returns the first match: later list elements cannot shadow an
earlier one. -/
theorem find_first {α : Type} (p : α → Bool) (l1 l2 : List α) (d : α)
    (h1 : ∀ x ∈ l1, p x = false) (h2 : p d = true) :
    (l1 ++ d :: l2).find? p = some d := by
  induction l1 with
  | nil => simp [List.find?, h2]
  | cons a t ih =>
    have ha : p a = false := h1 a (by simp)
    simp only [List.cons_append, List.find?, ha]
    exact ih (fun x hx => h1 x (List.mem_cons_of_mem a hx))

/- ---------------- claim theorems ---------------- -/

/-- Claim C1 (code bug): on a well-formed file whose directory has no
`SNPCount` entry, `Reader::new` does not return the `MissingField`
error the specification requires — the `.unwrap()` on the directory
lookup makes construction panic instead. -/
theorem c1_missing_snpcount_panics :
    Reader.new { data := c1Data, pos := 0 } = Outcome.fatal := by decide

/-- Claim C2 (code bug): on the specification's own scenario — declared
element count 3 with three stored `IlluminaID` values 10, 20, 30 — a
fresh iterator yields only the two elements 10 and 20, not the three
the claim requires: `next` increments `returned` twice per element and
stops on `returned > snp_count`. -/
theorem c2_iterator_yields_wrong_count :
    openAndCollect c2Data FieldType.IlluminaID 10 =
      Outcome.ok [FieldValue.int 10, FieldValue.int 20] := by decide

/-- Claim C4 (code bug): a file that is truncated right where the 4-byte
`SNPCount` value should be is opened successfully — the result of that
`read_exact` is discarded in `Reader::new`, so the short read is not
surfaced as an `Io` error and the count silently decodes from the
zero-initialised buffer. -/
theorem c4_snpcount_short_read_swallowed :
    Reader.new { data := c4Data, pos := 0 } =
      Outcome.ok
        { inner := { data := c4Data, pos := 26 },
          fields := [{ field_type := FieldType.SNPCount, byte_offset := 26 }],
          snp_count := 0 } := by decide

/-- Claim C9: decoding an `Int32`-format field over the bytes
`01 00 00 00` yields the value 1, and over `FF FF FF FF` yields -1
(4-byte little-endian two's-complement interpretation). -/
theorem c9_int32_little_endian_decode :
    openAndCollect c9DataA FieldType.IlluminaID 5 = Outcome.ok [FieldValue.int 1] ∧
    openAndCollect c9DataB FieldType.IlluminaID 5 = Outcome.ok [FieldValue.int (-1)] := by
  constructor <;> decide

/-- Claim C3 (counterexample): on a file with a stored count of 1 and an
`SD` field over the bytes `01 00`, iterating the `SD` field does not
decode the little-endian `u16` 1 — the run panics in `todo!()`. -/
theorem c3_short_field_decode_panics :
    openAndCollect c3Data FieldType.SD 5 = Outcome.fatal := by decide

/-- Claim C3 (amended): the registry does map SD, Mean and BeadCounts to
the Short wire format, but `next` on a field of any of these kinds never
decodes an element: any format other than Int reaches the `todo!()`
branch, so every non-exhausted `next` call panics instead of reading 2
bytes. -/
theorem c3_short_format_unimplemented (k : FieldType)
    (hk : k = FieldType.SD ∨ k = FieldType.Mean ∨ k = FieldType.BeadCounts) :
    k.get_data_type = FieldFormat.short ∧
    ∀ (r : Reader) (it : FieldIterator), it.field_def.field_type = k →
      ¬ it.returned > r.snp_count → FieldIterator.next r it = Outcome.fatal := by
  rcases hk with rfl | rfl | rfl <;>
  · refine ⟨rfl, fun r it hft hle => ?_⟩
    simp [FieldIterator.next, hle, hft, FieldType.get_data_type]

theorem c3_short_format_unimplemented_witness :
    FieldType.SD.get_data_type = FieldFormat.short ∧
    FieldIterator.next
      { inner := { data := [1, 0], pos := 0 }, fields := [], snp_count := 1 }
      { field_def := { field_type := FieldType.SD, byte_offset := 0 },
        returned := 0, offset := 0 } = Outcome.fatal := by
  obtain ⟨h1, h2⟩ := c3_short_format_unimplemented FieldType.SD (Or.inl rfl)
  exact ⟨h1, h2 _ _ rfl (by decide)⟩

/-- Claim C5: whenever the first 4 bytes of the source differ from the
ASCII bytes of `IDAT`, opening fails with `InvalidHeader` whose payload
is the 4 bytes decoded as text when they are valid UTF-8 and their raw
byte dump otherwise; the two concrete conjuncts exhibit the two mismatch
causes reported in their distinct formats (`IDAX` vs
`[255, 255, 255, 255]`). -/
theorem c5_invalid_header_reported (data : List Nat) (h4 : 4 ≤ data.length)
    (hb : ∀ b ∈ data.take 4, b < 256) (hne : data.take 4 ≠ [73, 68, 65, 84]) :
    Reader.new { data := data, pos := 0 } =
      Outcome.err (ReaderError.invalidHeader (headerActual (data.take 4))) ∧
    Reader.new { data := [73, 68, 65, 88], pos := 0 } =
      Outcome.err (ReaderError.invalidHeader "IDAX") ∧
    Reader.new { data := [255, 255, 255, 255], pos := 0 } =
      Outcome.err (ReaderError.invalidHeader "[255, 255, 255, 255]") := by
  refine ⟨?_, by decide, by decide⟩
  have hch : Reader.check_header { data := data, pos := 0 } =
      Outcome.err (ReaderError.invalidHeader (headerActual (data.take 4))) := by
    simp only [Reader.check_header,
      read_exact_ok { data := data, pos := 0 } 4 (by simpa using h4), List.drop_zero]
    cases hdec : utf8DecodeChars (data.take 4) with
    | none => simp [headerActual, hdec]
    | some cs =>
      have hs : String.mk cs ≠ "IDAT" := by
        intro hstr
        apply hne
        have henc := utf8DecodeChars_encode _ _ hdec
        have hcs : cs = "IDAT".data := congrArg String.data hstr
        rw [hcs] at henc
        rw [← henc]
        decide
      simp [headerActual, hdec, hs]
  simp [Reader.new, hch]

theorem c5_invalid_header_reported_witness :
    Reader.new { data := [88, 88, 88, 88], pos := 0 } =
      Outcome.err (ReaderError.invalidHeader (headerActual (([88, 88, 88, 88] :
        List Nat).take 4))) :=
  (c5_invalid_header_reported [88, 88, 88, 88] (by decide) (by decide) (by decide)).1

/-- Claim C6: a file with a good header that declares a directory entry
count requiring more bytes than the file holds (fewer than `n` complete
10-byte entries) fails to open with an I/O error — no silently short
directory is produced. -/
theorem c6_truncated_directory_io_error (data : List Nat)
    (hh : data.take 4 = [73, 68, 65, 84]) (hlen : 16 ≤ data.length)
    (htrunc : data.length < 16 + 10 * leNat ((data.drop 12).take 4)) :
    Reader.new { data := data, pos := 0 } = Outcome.err ReaderError.io := by
  have hch : Reader.check_header { data := data, pos := 0 } =
      Outcome.ok ((), { data := data, pos := 4 }) := by
    simp only [Reader.check_header,
      read_exact_ok { data := data, pos := 0 } 4 (by simpa using (by omega : 4 ≤ data.length)),
      List.drop_zero, Nat.zero_add, hh]
    simp only [show utf8DecodeChars [73, 68, 65, 84] = some ['I', 'D', 'A', 'T'] from by decide]
    rw [if_pos (by decide)]
  have hgf : Reader.get_fields { data := data, pos := 12 } = Outcome.err ReaderError.io := by
    simp only [Reader.get_fields,
      read_exact_ok { data := data, pos := 12 } 4 (by simpa using (by omega :
        12 + 4 ≤ data.length))]
    exact get_fields_loop_short _ { data := data, pos := 12 + 4 }
      (by simpa using (by omega : data.length < 12 + 4 + 10 * leNat ((data.drop 12).take 4)))
      (by omega)
  simp only [Reader.new, hch,
    read_exact_ok { data := data, pos := 4 } 8 (by simpa using (by omega :
      4 + 8 ≤ data.length))]
  norm_num
  simp [hgf]

theorem c6_truncated_directory_io_error_witness :
    Reader.new { data := c6Data, pos := 0 } = Outcome.err ReaderError.io :=
  c6_truncated_directory_io_error c6Data (by decide) (by decide) (by decide)

/-- Claim C7: on any reader, requesting iteration of a kind outside the
four iterable ones fails with `FieldNotIterable` no matter what the
directory holds, and requesting an iterable kind that has no definition
in the directory fails with `MissingField` naming that kind. -/
theorem c7_field_iter_errors (r : Reader) (k : FieldType) :
    (¬ (k = FieldType.IlluminaID ∨ k = FieldType.SD ∨ k = FieldType.Mean ∨
        k = FieldType.BeadCounts) →
      r.field_iter k = Outcome.err ReaderError.fieldNotIterable) ∧
    ((k = FieldType.IlluminaID ∨ k = FieldType.SD ∨ k = FieldType.Mean ∨
        k = FieldType.BeadCounts) →
      (∀ fd ∈ r.fields, fd.field_type ≠ k) →
      r.field_iter k = Outcome.err (ReaderError.missingField k)) := by
  constructor
  · intro hk
    cases k
    case IlluminaID => exact absurd (Or.inl rfl) hk
    case SD => exact absurd (Or.inr (Or.inl rfl)) hk
    case Mean => exact absurd (Or.inr (Or.inr (Or.inl rfl))) hk
    case BeadCounts => exact absurd (Or.inr (Or.inr (Or.inr rfl))) hk
    all_goals rfl
  · intro hk hnone
    have hfind : r.fields.find? (fun f => decide (f.field_type = k)) = none := by
      rw [List.find?_eq_none]
      intro x hx
      simpa using hnone x hx
    rcases hk with rfl | rfl | rfl | rfl <;> simp [Reader.field_iter, hfind]

theorem c7_field_iter_errors_witness :
    Reader.field_iter
      { inner := { data := [], pos := 0 }, fields := [], snp_count := 0 }
      FieldType.RedGreen = Outcome.err ReaderError.fieldNotIterable ∧
    Reader.field_iter
      { inner := { data := [], pos := 0 }, fields := [], snp_count := 0 }
      FieldType.SD = Outcome.err (ReaderError.missingField FieldType.SD) :=
  ⟨(c7_field_iter_errors _ _).1 (by decide),
    (c7_field_iter_errors _ _).2 (Or.inr (Or.inl rfl)) (by decide)⟩

/-- Claim C8: a directory-entry read never fails on account of the field
code: given 10 bytes for the entry it succeeds for every 16-bit code,
and a code with no registry mapping resolves to the `Unknown` kind. -/
theorem c8_unmapped_code_resolves_unknown (src : ByteSource)
    (h : src.pos + 10 ≤ src.data.length) :
    ∃ fd src2, Reader.get_field_definition src = Outcome.ok (fd, src2) ∧
      (FieldType.tryFrom (leNat ((src.data.drop src.pos).take 2)) = none →
        fd.field_type = FieldType.Unknown) := by
  simp only [Reader.get_field_definition,
    read_exact_ok src 2 (by omega : src.pos + 2 ≤ src.data.length)]
  simp only [read_exact_ok { src with pos := src.pos + 2 } 8 (by simpa using (by omega :
    src.pos + 2 + 8 ≤ src.data.length))]
  refine ⟨_, _, rfl, fun hn => ?_⟩
  simp [hn]

theorem c8_unmapped_code_resolves_unknown_witness :
    (0 : Nat) + 10 ≤ ([231, 3, 7, 0, 0, 0, 0, 0, 0, 0] : List Nat).length ∧
    ∃ fd src2,
      Reader.get_field_definition { data := [231, 3, 7, 0, 0, 0, 0, 0, 0, 0], pos := 0 } =
        Outcome.ok (fd, src2) ∧
      (FieldType.tryFrom (leNat ((([231, 3, 7, 0, 0, 0, 0, 0, 0, 0] :
          List Nat).drop 0).take 2)) = none →
        fd.field_type = FieldType.Unknown) :=
  ⟨by decide,
    c8_unmapped_code_resolves_unknown
      { data := [231, 3, 7, 0, 0, 0, 0, 0, 0, 0], pos := 0 } (by decide)⟩

/-- Claim C10: both lookups by kind use the first matching directory
entry.  In `field_iter`, a definition of the requested kind that is
preceded only by entries of other kinds is the one used, whatever
follows it (later duplicates are ignored); and constructing a reader
from a file whose directory holds two `SNPCount` entries (first value 2,
second value 9) resolves the count 2 from the first. -/
theorem c10_first_definition_wins (r : Reader) (k : FieldType) (l1 l2 : List FieldDef)
    (d : FieldDef) (hf : r.fields = l1 ++ d :: l2) (hd : d.field_type = k)
    (hl1 : ∀ x ∈ l1, x.field_type ≠ k)
    (hk : k = FieldType.IlluminaID ∨ k = FieldType.SD ∨ k = FieldType.Mean ∨
      k = FieldType.BeadCounts) :
    r.field_iter k = Outcome.ok { field_def := d, returned := 0, offset := d.byte_offset } ∧
    snpCountOf (Reader.new { data := c10Data, pos := 0 }) = some 2 := by
  have hfind : r.fields.find? (fun f => decide (f.field_type = k)) = some d := by
    rw [hf]
    exact find_first _ l1 l2 d (fun x hx => by simpa using hl1 x hx) (by simp [hd])
  refine ⟨?_, by decide⟩
  rcases hk with rfl | rfl | rfl | rfl <;> simp [Reader.field_iter, hfind]

theorem c10_first_definition_wins_witness :
    Reader.field_iter
      { inner := { data := [], pos := 0 },
        fields :=
          [{ field_type := FieldType.IlluminaID, byte_offset := 1 },
            { field_type := FieldType.SD, byte_offset := 7 },
            { field_type := FieldType.SD, byte_offset := 99 }],
        snp_count := 0 }
      FieldType.SD =
      Outcome.ok
        { field_def := { field_type := FieldType.SD, byte_offset := 7 },
          returned := 0, offset := 7 } ∧
    snpCountOf (Reader.new { data := c10Data, pos := 0 }) = some 2 :=
  c10_first_definition_wins _ FieldType.SD
    [{ field_type := FieldType.IlluminaID, byte_offset := 1 }]
    [{ field_type := FieldType.SD, byte_offset := 99 }]
    { field_type := FieldType.SD, byte_offset := 7 } rfl rfl (by decide)
    (Or.inr (Or.inl rfl))

end Idat
